import Mathlib

/-
Verification of the SimpleCalculator evaluation state machine
(force-app LWC component, file src/unnamed/part_000).

The JavaScript class fields and methods are embedded shallowly:
numbers become exact rationals (ℚ), the display is a Lean `String`,
nullable fields become `Option`, and each method becomes a pure
function from state to state.  JavaScript numeric strings and the
`toPrecision(12)` / `toString` formatting pipeline are modelled on ℚ
(the rational idealization has no NaN or Infinity, so the
`Number.isFinite` guard of `formatResult` is always true here).
-/

set_option allowUnsafeReducibility true

attribute [local semireducible] Rat.mul Rat.add Rat.sub Rat.div Rat.inv Rat.neg Rat.normalize

namespace SimpleCalculator

/-- The four binary operators the button layout can dispatch
(`'+'`, `'-'`, `'*'`, `'/'` in the source). -/
inductive Op
  | add
  | sub
  | mul
  | div
deriving DecidableEq

/-- Actions of the dispatch switch in handleButtonClick, as enumerated in
the spec: Digit, Decimal, Operator, Equals, Clear, ToggleSign, Percent. -/
inductive Action
  | Digit (d : Char)
  | Decimal
  | Operator (op : Op)
  | Equals
  | Clear
  | ToggleSign
  | Percent
deriving DecidableEq

/-- The dispatcher only produces digit actions carrying one of the ten
digit characters; validity of an action records that. -/
def Action.valid : Action → Bool
  | .Digit d => d.isDigit
  | _ => true

/-- String shown whenever the calculator is cleared or empty. -/
def DEFAULT_DISPLAY : String := "0"

/-- The five instance fields of the SimpleCalculator class. -/
structure CalcState where
  displayValue : String
  currentValue : Option ℚ
  pendingOperator : Option Op
  awaitingNextValue : Bool
  hasError : Bool
deriving DecidableEq

/-- Field initializers of the class: display "0", everything else
null / false. -/
def initialState : CalcState :=
  { displayValue := DEFAULT_DISPLAY
    currentValue := none
    pendingOperator := none
    awaitingNextValue := false
    hasError := false }

/-- resetCalculator: restore every internal flag to its initial state. -/
def resetCalculator (_s : CalcState) : CalcState := initialState

/-- signalError: surface an error message and block further input. -/
def signalError (_s : CalcState) : CalcState :=
  { displayValue := "Error"
    currentValue := none
    pendingOperator := none
    awaitingNextValue := false
    hasError := true }

/-- Numeric value of a digit character (JavaScript charCode minus 48). -/
def digitVal (c : Char) : ℕ := c.toNat - 48

/-- Value of a big-endian digit-character list. -/
def natOfDigits (ds : List Char) : ℕ :=
  ds.foldl (fun a c => 10 * a + digitVal c) 0

/-- Exponent part of a JavaScript float literal, after the letter e:
optional sign then digits; an empty digit run contributes exponent 0
(parseFloat then simply does not consume the exponent part). -/
def parseExp : List Char → ℤ
  | '-' :: rest => -(natOfDigits (rest.takeWhile Char.isDigit) : ℤ)
  | '+' :: rest => (natOfDigits (rest.takeWhile Char.isDigit) : ℤ)
  | cs => (natOfDigits (cs.takeWhile Char.isDigit) : ℤ)

/-- Model of JavaScript parseFloat on the strings this machine builds:
optional sign, integer digits, optional fraction, optional exponent.
A string with no digits at all parses to NaN in JavaScript; the machine
never evaluates such a display, and the model returns 0 there. -/
def parseFloat (s : String) : ℚ :=
  let p : Bool × List Char :=
    match s.data with
    | '-' :: rest => (true, rest)
    | '+' :: rest => (false, rest)
    | cs => (false, cs)
  let intPart := p.2.takeWhile Char.isDigit
  let afterInt := p.2.dropWhile Char.isDigit
  let q : List Char × List Char :=
    match afterInt with
    | '.' :: rest => (rest.takeWhile Char.isDigit, rest.dropWhile Char.isDigit)
    | cs => ([], cs)
  if intPart.isEmpty && q.1.isEmpty then 0
  else
    let mag : ℚ :=
      (natOfDigits intPart : ℚ) + (natOfDigits q.1 : ℚ) / (10 : ℚ) ^ q.1.length
    let ex : ℤ :=
      match q.2 with
      | 'e' :: rest => parseExp rest
      | 'E' :: rest => parseExp rest
      | _ => 0
    let scaled : ℚ :=
      if 0 ≤ ex then mag * (10 : ℚ) ^ ex.toNat else mag / (10 : ℚ) ^ (-ex).toNat
    if p.1 then -scaled else scaled

/-- Floor of the base-10 logarithm of a positive natural number,
computed by fuelled structural recursion so the kernel can reduce it. -/
def log10Aux : ℕ → ℕ → ℕ
  | 0, _ => 0
  | fuel + 1, n => if n < 10 then 0 else log10Aux fuel (n / 10) + 1

/-- log10floor n is the largest e with 10 ^ e ≤ n, for n ≥ 1. -/
def log10floor (n : ℕ) : ℕ := log10Aux n n

/-- Ceiling of the base-10 logarithm, fuelled like log10Aux. -/
def clog10Aux : ℕ → ℕ → ℕ
  | 0, _ => 0
  | fuel + 1, t => if t ≤ 1 then 0 else clog10Aux fuel ((t + 9) / 10) + 1

/-- clog10 t is the smallest k with t ≤ 10 ^ k. -/
def clog10 (t : ℕ) : ℕ := clog10Aux t t

/-- Decimal exponent of a positive rational: the integer e with
10 ^ e ≤ x < 10 ^ (e + 1). -/
def decExp (x : ℚ) : ℤ :=
  if 1 ≤ x then (log10floor (⌊x⌋).toNat : ℤ)
  else -(clog10 (⌈x⁻¹⌉).toNat : ℤ)

/-- Round a rational to the nearest integer (half up). -/
def roundHalf (x : ℚ) : ℤ := ⌊x + 1 / 2⌋

/-- Round x at decimal position k, yielding the integer n with
rounded value n · 10 ^ k. -/
def roundAt (x : ℚ) (k : ℤ) : ℤ :=
  if 0 ≤ k then roundHalf (x / (10 : ℚ) ^ k.toNat)
  else roundHalf (x * (10 : ℚ) ^ (-k).toNat)

/-- Model of parseFloat(value.toPrecision(12)): the rounded value as a
mantissa-exponent pair (n, k) with numeric value n · 10 ^ k, where n is
the rounding of x to 12 significant decimal digits. -/
def toPrecision12 (value : ℚ) : ℤ × ℤ :=
  if value = 0 then (0, 0)
  else
    let k := decExp |value| - 11
    (roundAt value k, k)

/-- Strip factors of 10 from a natural number, returning the stripped
number and the count of zeros removed.  Fuel 32 is exact for every
mantissa toPrecision12 can produce (at most 13 digits). -/
def stripTrailingAux : ℕ → ℕ → ℕ × ℕ
  | 0, m => (m, 0)
  | fuel + 1, m =>
    if m % 10 = 0 && !(m = 0 : Bool) then
      let r := stripTrailingAux fuel (m / 10)
      (r.1, r.2 + 1)
    else (m, 0)

/-- stripTrailing m = (m0, t) with m = m0 · 10 ^ t and m0 not a
multiple of 10 (for m in the fuelled range). -/
def stripTrailing (m : ℕ) : ℕ × ℕ := stripTrailingAux 32 m

/-- Little-endian base-10 digits, fuelled (exact below 10 ^ 32). -/
def digitsAux : ℕ → ℕ → List ℕ
  | 0, _ => []
  | fuel + 1, m => if m = 0 then [] else m % 10 :: digitsAux fuel (m / 10)

/-- Little-endian decimal digit list of a natural number. -/
def digitList (m : ℕ) : List ℕ := digitsAux 32 m

/-- The character for one decimal digit. -/
def digitChar : ℕ → Char
  | 0 => '0'
  | 1 => '1'
  | 2 => '2'
  | 3 => '3'
  | 4 => '4'
  | 5 => '5'
  | 6 => '6'
  | 7 => '7'
  | 8 => '8'
  | 9 => '9'
  | _ => '*'

/-- Big-endian digit characters of a natural number (empty for 0). -/
def digitChars (m : ℕ) : List Char := ((digitList m).map digitChar).reverse

/-- ECMAScript Number::toString applied to the value n · 10 ^ k with
n ≠ 0: integer form, fixed-point form, leading-zero fixed form, or
exponential form, exactly as the ECMA-262 algorithm cases go. -/
def renderScaled (n : ℤ) (k : ℤ) : String :=
  let sign : String := if n < 0 then "-" else ""
  let st := stripTrailing n.natAbs
  let dl := digitChars st.1
  let kk : ℤ := (dl.length : ℤ)
  let pos : ℤ := kk + (st.2 : ℤ) + k
  if kk ≤ pos ∧ pos ≤ 21 then
    sign ++ String.mk dl ++ String.mk (List.replicate (pos - kk).toNat '0')
  else if 0 < pos ∧ pos ≤ 21 then
    sign ++ String.mk (dl.take pos.toNat) ++ "." ++ String.mk (dl.drop pos.toNat)
  else if -6 < pos ∧ pos ≤ 0 then
    sign ++ "0." ++ String.mk (List.replicate (-pos).toNat '0') ++ String.mk dl
  else
    let mantStr : String :=
      if dl.length ≤ 1 then String.mk dl
      else String.mk (dl.take 1) ++ "." ++ String.mk (dl.drop 1)
    let ex := pos - 1
    sign ++ mantStr ++ "e" ++ (if 0 ≤ ex then "+" else "-")
      ++ String.mk (digitChars ex.natAbs)

/-- formatResult: parseFloat(parseFloat(value).toPrecision(12)) then
toString; the rational model has no non-finite values, so the
Number.isFinite fallback to "0" only fires for the zero mantissa. -/
def formatResult (value : ℚ) : String :=
  let p := toPrecision12 value
  if p.1 = 0 then DEFAULT_DISPLAY else renderScaled p.1 p.2

/-- performCalculation: the arithmetic for the staged operator; division
returns null (modelled none) when the second operand is zero.  The
switch default case returning secondValue is unreachable because Op
enumerates exactly the four dispatched operator strings. -/
def performCalculation (firstValue secondValue : ℚ) : Op → Option ℚ
  | .add => some (firstValue + secondValue)
  | .sub => some (firstValue - secondValue)
  | .mul => some (firstValue * secondValue)
  | .div => if secondValue = 0 then none else some (firstValue / secondValue)

/-- inputDigit: append digits or start a fresh operand; an error state
is first fully reset. -/
def inputDigit (s : CalcState) (d : Char) : CalcState :=
  let s := if s.hasError then resetCalculator s else s
  if s.awaitingNextValue then
    { s with displayValue := String.mk [d], awaitingNextValue := false }
  else if s.displayValue = DEFAULT_DISPLAY then
    { s with displayValue := String.mk [d] }
  else
    { s with displayValue := s.displayValue ++ String.mk [d] }

/-- inputDecimal: insert a decimal point if the current operand does
not already have one; an error state is first fully reset. -/
def inputDecimal (s : CalcState) : CalcState :=
  let s := if s.hasError then resetCalculator s else s
  if s.awaitingNextValue then
    { s with displayValue := "0.", awaitingNextValue := false }
  else if '.' ∈ s.displayValue.data then s
  else { s with displayValue := s.displayValue ++ "." }

/-- handleOperator: resolve the previous operation then stage the next
operator; currentValue is null-coerced to 0 in arithmetic exactly as
JavaScript would coerce null. -/
def handleOperator (s : CalcState) (op : Op) : CalcState :=
  if s.hasError then s
  else
    let inputValue := parseFloat s.displayValue
    if s.pendingOperator.isSome && s.awaitingNextValue then
      { s with pendingOperator := some op }
    else if s.currentValue = none then
      { s with currentValue := some inputValue
               pendingOperator := some op
               awaitingNextValue := true }
    else
      match s.pendingOperator with
      | some pop =>
        match performCalculation (s.currentValue.getD 0) inputValue pop with
        | none => signalError s
        | some result =>
          { s with currentValue := some result
                   displayValue := formatResult result
                   pendingOperator := some op
                   awaitingNextValue := true }
      | none =>
        { s with currentValue := some inputValue
                 pendingOperator := some op
                 awaitingNextValue := true }

/-- handleEquals: finalize the pending calculation and show the result;
a missing operator, a latched error, or a still-awaited operand make it
a no-op. -/
def handleEquals (s : CalcState) : CalcState :=
  match s.pendingOperator with
  | none => s
  | some pop =>
    if s.hasError || s.awaitingNextValue then s
    else
      let inputValue := parseFloat s.displayValue
      match performCalculation (s.currentValue.getD 0) inputValue pop with
      | none => signalError s
      | some result =>
        { s with displayValue := formatResult result
                 currentValue := none
                 pendingOperator := none
                 awaitingNextValue := false }

/-- toggleSign: flip the sign of the current operand unless an error is
latched or the display shows the default "0". -/
def toggleSign (s : CalcState) : CalcState :=
  if s.hasError || s.displayValue = DEFAULT_DISPLAY then s
  else
    { s with displayValue := formatResult (parseFloat s.displayValue * -1) }

/-- applyPercent: divide the displayed value by 100; the result also
becomes the accumulated value when no operator is pending. -/
def applyPercent (s : CalcState) : CalcState :=
  if s.hasError then s
  else
    let result := parseFloat s.displayValue / 100
    let s := { s with displayValue := formatResult result }
    if s.pendingOperator = none then { s with currentValue := some result }
    else s

/-- The dispatch switch of handleButtonClick, routing one action. -/
def apply (s : CalcState) : Action → CalcState
  | .Digit d => inputDigit s d
  | .Decimal => inputDecimal s
  | .Operator op => handleOperator s op
  | .Equals => handleEquals s
  | .Clear => resetCalculator s
  | .ToggleSign => toggleSign s
  | .Percent => applyPercent s

/-- Run a whole sequence of actions from a starting state. -/
def applyAll (s : CalcState) (acts : List Action) : CalcState :=
  acts.foldl apply s

/-- Number of decimal points in a string. -/
def dotCount (s : String) : ℕ := s.data.countP (fun c => c == '.')

lemma dotCount_mk (l : List Char) :
    dotCount (String.mk l) = l.countP (fun c => c == '.') := rfl

lemma dotCount_append (a b : String) :
    dotCount (a ++ b) = dotCount a + dotCount b := by
  cases a with
  | mk la =>
    cases b with
    | mk lb =>
      show (la ++ lb).countP (fun c => c == '.') = _
      simp [dotCount, List.countP_append]

lemma digitChar_ne_dot (d : ℕ) : digitChar d ≠ '.' := by
  unfold digitChar
  split <;> decide

lemma countP_dot_digitChars (m : ℕ) :
    (digitChars m).countP (fun c => c == '.') = 0 := by
  rw [List.countP_eq_zero]
  intro c hc
  rw [digitChars, List.mem_reverse, List.mem_map] at hc
  obtain ⟨d, _, rfl⟩ := hc
  simp [digitChar_ne_dot d]

lemma countP_dot_replicate_zero (n : ℕ) :
    (List.replicate n '0').countP (fun c => c == '.') = 0 := by
  rw [List.countP_eq_zero]
  intro c hc
  rw [List.mem_replicate] at hc
  rw [hc.2]
  decide

lemma countP_dot_take (dl : List Char) (hdl : dl.countP (fun c => c == '.') = 0)
    (j : ℕ) : (dl.take j).countP (fun c => c == '.') = 0 := by
  rw [List.countP_eq_zero] at hdl ⊢
  intro c hc
  exact hdl c (List.mem_of_mem_take hc)

lemma countP_dot_drop (dl : List Char) (hdl : dl.countP (fun c => c == '.') = 0)
    (j : ℕ) : (dl.drop j).countP (fun c => c == '.') = 0 := by
  rw [List.countP_eq_zero] at hdl ⊢
  intro c hc
  exact hdl c (List.mem_of_mem_drop hc)

lemma dotCount_render_branches (sgn : String)
    (hs : sgn.data.countP (fun c => c == '.') = 0) (dl : List Char)
    (hdl : dl.countP (fun c => c == '.') = 0) (kk pos exv : ℤ) :
    dotCount
      (if kk ≤ pos ∧ pos ≤ 21 then
        sgn ++ String.mk dl ++ String.mk (List.replicate (pos - kk).toNat '0')
      else if 0 < pos ∧ pos ≤ 21 then
        sgn ++ String.mk (dl.take pos.toNat) ++ "." ++ String.mk (dl.drop pos.toNat)
      else if -6 < pos ∧ pos ≤ 0 then
        sgn ++ "0." ++ String.mk (List.replicate (-pos).toNat '0') ++ String.mk dl
      else
        sgn ++ (if dl.length ≤ 1 then String.mk dl
          else String.mk (dl.take 1) ++ "." ++ String.mk (dl.drop 1)) ++ "e"
          ++ (if 0 ≤ exv then "+" else "-") ++ String.mk (digitChars exv.natAbs)) ≤ 1 := by
  have hdot : (("." : String)).data.countP (fun c => c == '.') = 1 := by decide
  have hzdot : (("0." : String)).data.countP (fun c => c == '.') = 1 := by decide
  have hne : (("e" : String)).data.countP (fun c => c == '.') = 0 := by decide
  split
  · simp only [dotCount, String.data_append, List.countP_append]
    rw [hs, hdl, countP_dot_replicate_zero]
    omega
  · split
    · simp only [dotCount, String.data_append, List.countP_append]
      rw [hs, countP_dot_take dl hdl, countP_dot_drop dl hdl, hdot]
    · split
      · simp only [dotCount, String.data_append, List.countP_append]
        rw [hs, hdl, countP_dot_replicate_zero, hzdot]
      · have hpm : (if (0:ℤ) ≤ exv then ("+":String) else "-").data.countP
            (fun c => c == '.') = 0 := by
          split <;> decide
        have hmant : (if dl.length ≤ 1 then String.mk dl
            else String.mk (dl.take 1) ++ "." ++ String.mk (dl.drop 1)).data.countP
            (fun c => c == '.') ≤ 1 := by
          split
          · show dl.countP (fun c => c == '.') ≤ 1
            omega
          · simp only [String.data_append, List.countP_append]
            show (dl.take 1).countP (fun c => c == '.') +
              (("." : String)).data.countP (fun c => c == '.') +
              (dl.drop 1).countP (fun c => c == '.') ≤ 1
            rw [countP_dot_take dl hdl, countP_dot_drop dl hdl, hdot]
        simp only [dotCount, String.data_append, List.countP_append]
        rw [hs, countP_dot_digitChars, hne, hpm]
        show 0 + (if dl.length ≤ 1 then String.mk dl
          else String.mk (dl.take 1) ++ "." ++ String.mk (dl.drop 1)).data.countP
            (fun c => c == '.') + 0 + 0 + 0 ≤ 1
        omega

lemma dotCount_renderScaled (n k : ℤ) : dotCount (renderScaled n k) ≤ 1 := by
  have hsgn : (if n < 0 then ("-":String) else "").data.countP (fun c => c == '.') = 0 := by
    split <;> decide
  exact dotCount_render_branches (if n < 0 then "-" else "") hsgn
    (digitChars (stripTrailing n.natAbs).1) (countP_dot_digitChars _)
    ((digitChars (stripTrailing n.natAbs).1).length : ℤ)
    (((digitChars (stripTrailing n.natAbs).1).length : ℤ) + ((stripTrailing n.natAbs).2 : ℤ) + k)
    ((((digitChars (stripTrailing n.natAbs).1).length : ℤ) +
      ((stripTrailing n.natAbs).2 : ℤ) + k) - 1)

lemma formatResult_eq (q : ℚ) :
    formatResult q = if (toPrecision12 q).1 = 0 then DEFAULT_DISPLAY
      else renderScaled (toPrecision12 q).1 (toPrecision12 q).2 := rfl

lemma dotCount_formatResult (q : ℚ) : dotCount (formatResult q) ≤ 1 := by
  rw [formatResult_eq]
  split
  · decide
  · exact dotCount_renderScaled _ _

lemma isDigit_beq_dot {d : Char} (h : d.isDigit = true) : (d == '.') = false := by
  cases hbe : d == '.' with
  | false => rfl
  | true =>
    exfalso
    have hd : d = '.' := eq_of_beq hbe
    rw [hd] at h
    exact absurd h (by decide)

lemma dotCount_singleton (d : Char) (hd : (d == '.') = false) :
    dotCount (String.mk [d]) = 0 := by
  rw [dotCount_mk, List.countP_cons, hd]
  rfl

lemma dotCount_inputDigit (s : CalcState) (d : Char) (hd : (d == '.') = false)
    (hs : dotCount s.displayValue ≤ 1) : dotCount (inputDigit s d).displayValue ≤ 1 := by
  have hone : dotCount (String.mk [d]) = 0 := dotCount_singleton d hd
  obtain ⟨dv, cv, po, aw, he⟩ := s
  have hs' : dotCount dv ≤ 1 := hs
  cases he with
  | true =>
    show dotCount (String.mk [d]) ≤ 1
    omega
  | false =>
    cases aw with
    | true =>
      show dotCount (String.mk [d]) ≤ 1
      omega
    | false =>
      by_cases hdd : dv = DEFAULT_DISPLAY
      · show dotCount ((if dv = DEFAULT_DISPLAY then
            (⟨String.mk [d], cv, po, false, false⟩ : CalcState)
          else (⟨dv ++ String.mk [d], cv, po, false, false⟩ :
            CalcState)).displayValue) ≤ 1
        rw [if_pos hdd]
        show dotCount (String.mk [d]) ≤ 1
        omega
      · show dotCount ((if dv = DEFAULT_DISPLAY then
            (⟨String.mk [d], cv, po, false, false⟩ : CalcState)
          else (⟨dv ++ String.mk [d], cv, po, false, false⟩ :
            CalcState)).displayValue) ≤ 1
        rw [if_neg hdd]
        show dotCount (dv ++ String.mk [d]) ≤ 1
        rw [dotCount_append, hone]
        omega

lemma dotCount_inputDecimal (s : CalcState)
    (hs : dotCount s.displayValue ≤ 1) : dotCount (inputDecimal s).displayValue ≤ 1 := by
  obtain ⟨dv, cv, po, aw, he⟩ := s
  have hs' : dotCount dv ≤ 1 := hs
  cases he with
  | true =>
    show dotCount "0." ≤ 1
    decide
  | false =>
    cases aw with
    | true =>
      show dotCount "0." ≤ 1
      decide
    | false =>
      by_cases hmem : '.' ∈ dv.data
      · show dotCount ((if '.' ∈ dv.data then
            (⟨dv, cv, po, false, false⟩ : CalcState)
          else (⟨dv ++ ".", cv, po, false, false⟩ : CalcState)).displayValue) ≤ 1
        rw [if_pos hmem]
        exact hs'
      · show dotCount ((if '.' ∈ dv.data then
            (⟨dv, cv, po, false, false⟩ : CalcState)
          else (⟨dv ++ ".", cv, po, false, false⟩ : CalcState)).displayValue) ≤ 1
        rw [if_neg hmem]
        show dotCount (dv ++ ".") ≤ 1
        rw [dotCount_append]
        have hz : dotCount dv = 0 := by
          rw [dotCount, List.countP_eq_zero]
          intro c hc
          simp only [beq_iff_eq]
          intro hcd
          exact hmem (hcd ▸ hc)
        rw [hz]
        decide

lemma dotCount_signalError (s : CalcState) :
    dotCount (signalError s).displayValue ≤ 1 := by
  show dotCount "Error" ≤ 1
  decide

lemma dotCount_handleOperator (s : CalcState) (op : Op)
    (hs : dotCount s.displayValue ≤ 1) :
    dotCount (handleOperator s op).displayValue ≤ 1 := by
  obtain ⟨dv, cv, po, aw, he⟩ := s
  have hs' : dotCount dv ≤ 1 := hs
  cases he with
  | true => exact hs'
  | false =>
    cases po with
    | none =>
      cases cv with
      | none => exact hs'
      | some c => exact hs'
    | some pop =>
      cases aw with
      | true => exact hs'
      | false =>
        cases cv with
        | none => exact hs'
        | some c =>
          show dotCount ((match performCalculation c (parseFloat dv) pop with
            | none => signalError (⟨dv, some c, some pop, false, false⟩ : CalcState)
            | some result =>
              (⟨formatResult result, some result, some op, true, false⟩ :
                CalcState)).displayValue) ≤ 1
          cases hres : performCalculation c (parseFloat dv) pop with
          | none =>
            show dotCount "Error" ≤ 1
            decide
          | some r =>
            show dotCount (formatResult r) ≤ 1
            exact dotCount_formatResult r

lemma dotCount_handleEquals (s : CalcState)
    (hs : dotCount s.displayValue ≤ 1) :
    dotCount (handleEquals s).displayValue ≤ 1 := by
  obtain ⟨dv, cv, po, aw, he⟩ := s
  have hs' : dotCount dv ≤ 1 := hs
  cases po with
  | none => exact hs'
  | some pop =>
    cases he with
    | true => exact hs'
    | false =>
      cases aw with
      | true => exact hs'
      | false =>
        show dotCount ((match performCalculation (Option.getD cv 0) (parseFloat dv) pop with
          | none => signalError (⟨dv, cv, some pop, false, false⟩ : CalcState)
          | some result =>
            (⟨formatResult result, none, none, false, false⟩ :
              CalcState)).displayValue) ≤ 1
        cases hres : performCalculation (Option.getD cv 0) (parseFloat dv) pop with
        | none =>
          show dotCount "Error" ≤ 1
          decide
        | some r =>
          show dotCount (formatResult r) ≤ 1
          exact dotCount_formatResult r

lemma dotCount_toggleSign (s : CalcState)
    (hs : dotCount s.displayValue ≤ 1) :
    dotCount (toggleSign s).displayValue ≤ 1 := by
  unfold toggleSign
  split
  · exact hs
  · exact dotCount_formatResult _

lemma dotCount_applyPercent (s : CalcState)
    (hs : dotCount s.displayValue ≤ 1) :
    dotCount (applyPercent s).displayValue ≤ 1 := by
  obtain ⟨dv, cv, po, aw, he⟩ := s
  have hs' : dotCount dv ≤ 1 := hs
  cases he with
  | true => exact hs'
  | false =>
    cases po with
    | none =>
      show dotCount (formatResult (parseFloat dv / 100)) ≤ 1
      exact dotCount_formatResult _
    | some pop =>
      show dotCount (formatResult (parseFloat dv / 100)) ≤ 1
      exact dotCount_formatResult _

lemma dotCount_apply (s : CalcState) (a : Action) (hv : a.valid = true)
    (hs : dotCount s.displayValue ≤ 1) : dotCount (apply s a).displayValue ≤ 1 := by
  cases a with
  | Digit d =>
    exact dotCount_inputDigit s d (isDigit_beq_dot (by simpa [Action.valid] using hv)) hs
  | Decimal => exact dotCount_inputDecimal s hs
  | Operator op => exact dotCount_handleOperator s op hs
  | Equals => exact dotCount_handleEquals s hs
  | Clear =>
    show dotCount DEFAULT_DISPLAY ≤ 1
    decide
  | ToggleSign => exact dotCount_toggleSign s hs
  | Percent => exact dotCount_applyPercent s hs

lemma dotCount_applyAll (acts : List Action) (s : CalcState)
    (hv : ∀ a ∈ acts, a.valid = true) (hs : dotCount s.displayValue ≤ 1) :
    dotCount (applyAll s acts).displayValue ≤ 1 := by
  induction acts generalizing s with
  | nil => exact hs
  | cons a rest ih =>
    rw [applyAll, List.foldl_cons]
    exact ih (apply s a) (fun b hb => hv b (List.mem_cons_of_mem a hb))
      (dotCount_apply s a (hv a (List.mem_cons_self a rest)) hs)

lemma inputDecimal_mk_eq (dv : String) (cv : Option ℚ) (po : Option Op)
    (hmem : ¬ '.' ∈ dv.data) :
    inputDecimal (⟨dv, cv, po, false, false⟩ : CalcState) =
      (⟨dv ++ ".", cv, po, false, false⟩ : CalcState) := by
  show (if '.' ∈ dv.data then (⟨dv, cv, po, false, false⟩ : CalcState)
    else (⟨dv ++ ".", cv, po, false, false⟩ : CalcState)) = _
  rw [if_neg hmem]

lemma inputDecimal_mk_mem (dv : String) (cv : Option ℚ) (po : Option Op)
    (hmem : '.' ∈ dv.data) :
    inputDecimal (⟨dv, cv, po, false, false⟩ : CalcState) =
      (⟨dv, cv, po, false, false⟩ : CalcState) := by
  show (if '.' ∈ dv.data then (⟨dv, cv, po, false, false⟩ : CalcState)
    else (⟨dv ++ ".", cv, po, false, false⟩ : CalcState)) = _
  rw [if_pos hmem]

lemma mem_dot_append_dot (dv : String) : '.' ∈ ((dv ++ "." : String)).data := by
  rw [String.data_append]
  exact List.mem_append_right _ (by decide)

lemma inputDecimal_idem (s : CalcState) :
    inputDecimal (inputDecimal s) = inputDecimal s := by
  obtain ⟨dv, cv, po, aw, he⟩ := s
  cases he with
  | true => rfl
  | false =>
    cases aw with
    | true =>
      have h1 : inputDecimal (⟨dv, cv, po, true, false⟩ : CalcState) =
          (⟨"0.", cv, po, false, false⟩ : CalcState) := rfl
      rw [h1]
      exact inputDecimal_mk_mem "0." cv po (by decide)
    | false =>
      by_cases hmem : '.' ∈ dv.data
      · rw [inputDecimal_mk_mem dv cv po hmem]
        exact inputDecimal_mk_mem dv cv po hmem
      · rw [inputDecimal_mk_eq dv cv po hmem]
        exact inputDecimal_mk_mem (dv ++ ".") cv po (mem_dot_append_dot dv)

lemma applyAll_digits_append (ds : List Char) (c : Char) (cs : List Char)
    (cv : Option ℚ) (po : Option Op) (hc : c ≠ '0') :
    (applyAll (⟨String.mk (c :: cs), cv, po, false, false⟩ : CalcState)
      (ds.map Action.Digit)).displayValue = String.mk ((c :: cs) ++ ds) := by
  induction ds generalizing cs with
  | nil => simp [applyAll]
  | cons d rest ih =>
    rw [List.map_cons, applyAll, List.foldl_cons]
    have hne : String.mk (c :: cs) ≠ DEFAULT_DISPLAY := by
      intro hx
      have hdata : c :: cs = ['0'] := congrArg String.data hx
      injection hdata with h1 _
      exact hc h1
    have hstep : apply (⟨String.mk (c :: cs), cv, po, false, false⟩ : CalcState)
        (Action.Digit d) = (⟨String.mk (c :: (cs ++ [d])), cv, po, false, false⟩ :
          CalcState) := by
      show (if String.mk (c :: cs) = DEFAULT_DISPLAY then
          (⟨String.mk [d], cv, po, false, false⟩ : CalcState)
        else (⟨String.mk (c :: cs) ++ String.mk [d], cv, po, false, false⟩ :
          CalcState)) = _
      rw [if_neg hne]
      rfl
    rw [hstep]
    have hr := ih (cs ++ [d])
    rw [show (rest.map Action.Digit).foldl apply
        (⟨String.mk (c :: (cs ++ [d])), cv, po, false, false⟩ : CalcState) =
        applyAll (⟨String.mk (c :: (cs ++ [d])), cv, po, false, false⟩ : CalcState)
        (rest.map Action.Digit) from rfl, hr]
    simp

/-- Claim C1: performCalculation returns a+b, a-b, a*b for the three total
operators, fails exactly on division with second operand zero (the only
failure of the state machine, returned as a value, never thrown), and
signalError puts the state into display Error with accumulator null,
pending operator null, awaitingOperand false and the error latched. -/
theorem claim1_evaluate_and_error_path (a b : ℚ) (s : CalcState) :
    performCalculation a b Op.add = some (a + b) ∧
    performCalculation a b Op.sub = some (a - b) ∧
    performCalculation a b Op.mul = some (a * b) ∧
    performCalculation a b Op.div = (if b = 0 then none else some (a / b)) ∧
    (∀ op : Op, performCalculation a b op = none ↔ op = Op.div ∧ b = 0) ∧
    signalError s = (⟨"Error", none, none, false, true⟩ : CalcState) := by
  refine ⟨rfl, rfl, rfl, rfl, ?_, rfl⟩
  intro op
  cases op with
  | add => simp [performCalculation]
  | sub => simp [performCalculation]
  | mul => simp [performCalculation]
  | div =>
    show (if b = 0 then none else some (a / b)) = none ↔ Op.div = Op.div ∧ b = 0
    constructor
    · intro h
      by_cases hb : b = 0
      · exact ⟨rfl, hb⟩
      · rw [if_neg hb] at h
        exact absurd h (by simp)
    · rintro ⟨_, hb⟩
      rw [if_pos hb]

/-- Claim C1 witness: division by zero fails, addition succeeds, at
concrete operands. -/
theorem claim1_witness :
    performCalculation 3 0 Op.div = none ∧ performCalculation 3 2 Op.add = some 5 := by
  constructor
  · have h := (claim1_evaluate_and_error_path 3 0 initialState).2.2.2.1
    rw [h]
    simp
  · have h := (claim1_evaluate_and_error_path 3 2 initialState).1
    rw [h]
    norm_num

/-- Claim C2: with no error latched, a pending operator, and the operand
already entered, Equals evaluates accumulator op parse(display); on
success the display shows the formatted result and accumulator, pending
operator and awaitingOperand are cleared; and the concrete chain
Digit 5, Operator +, Digit 3, Equals ends with display 8. -/
theorem claim2_equals_resolves (s : CalcState) (op : Op) (a r : ℚ)
    (h0 : s.currentValue = some a)
    (h1 : s.hasError = false)
    (h2 : s.pendingOperator = some op)
    (h3 : s.awaitingNextValue = false)
    (h4 : performCalculation a (parseFloat s.displayValue) op = some r) :
    handleEquals s = { s with displayValue := formatResult r,
                              currentValue := none,
                              pendingOperator := none,
                              awaitingNextValue := false } ∧
    (applyAll initialState [Action.Digit '5', Action.Operator Op.add,
      Action.Digit '3', Action.Equals]).displayValue = "8" := by
  constructor
  · obtain ⟨dv, cv, po, aw, he⟩ := s
    have h0' : cv = some a := h0
    have h1' : he = false := h1
    have h2' : po = some op := h2
    have h3' : aw = false := h3
    subst h0' h1' h2' h3'
    have h4' : performCalculation a (parseFloat dv) op = some r := h4
    show (match performCalculation a (parseFloat dv) op with
      | none => signalError (⟨dv, some a, some op, false, false⟩ : CalcState)
      | some result => (⟨formatResult result, none, none, false, false⟩ : CalcState)) =
      (⟨formatResult r, none, none, false, false⟩ : CalcState)
    rw [h4']
  · decide

/-- Claim C2 witness: the hypotheses hold at the state reached after
Digit 5, Operator +, Digit 3, and Equals resolves it to 8. -/
theorem claim2_witness :
    performCalculation 5 (parseFloat "3") Op.add = some 8 ∧
    handleEquals (⟨"3", some 5, some Op.add, false, false⟩ : CalcState) =
      (⟨formatResult 8, none, none, false, false⟩ : CalcState) ∧
    (applyAll initialState [Action.Digit '5', Action.Operator Op.add,
      Action.Digit '3', Action.Equals]).displayValue = "8" := by
  have h := claim2_equals_resolves (⟨"3", some 5, some Op.add, false, false⟩ : CalcState)
    Op.add 5 8 rfl rfl rfl rfl (by decide)
  exact ⟨by decide, h.1, h.2⟩

/-- Claim C3: while the error is latched, Operator, Equals, ToggleSign
and Percent leave the state unchanged, Digit and Decimal first perform a
full reset (so they act exactly as from the initial state), and Clear
resets unconditionally; hence the latch is left only via Clear or new
digit or decimal input. -/
theorem claim3_error_latch (s : CalcState) (op : Op) (d : Char)
    (h : s.hasError = true) :
    handleOperator s op = s ∧ handleEquals s = s ∧ toggleSign s = s ∧
    applyPercent s = s ∧ inputDigit s d = inputDigit initialState d ∧
    inputDecimal s = inputDecimal initialState ∧ resetCalculator s = initialState := by
  obtain ⟨dv, cv, po, aw, he⟩ := s
  have h' : he = true := h
  subst h'
  refine ⟨rfl, ?_, rfl, rfl, rfl, rfl, rfl⟩
  cases po with
  | none => rfl
  | some pop => rfl

/-- Claim C3 witness: instantiated at the state produced by signalError
from the initial state. -/
theorem claim3_witness :
    (signalError initialState).hasError = true ∧
    handleOperator (signalError initialState) Op.add = signalError initialState ∧
    inputDigit (signalError initialState) '5' = inputDigit initialState '5' :=
  ⟨rfl, (claim3_error_latch (signalError initialState) Op.add '5' rfl).1,
    (claim3_error_latch (signalError initialState) Op.add '5' rfl).2.2.2.2.1⟩

/-- Claim C4: a pure digit sequence from the initial state displays the
concatenation of the digits with the leading run of zeros suppressed
(the display stays 0 until a nonzero digit arrives). -/
theorem claim4_digit_concatenation (ds : List Char) :
    (applyAll initialState (ds.map Action.Digit)).displayValue =
      (if ds.dropWhile (fun c => c == '0') = [] then DEFAULT_DISPLAY
       else String.mk (ds.dropWhile (fun c => c == '0'))) := by
  induction ds with
  | nil => rfl
  | cons d rest ih =>
    by_cases hd0 : d = '0'
    · subst hd0
      rw [List.map_cons, applyAll, List.foldl_cons]
      have h0 : apply initialState (Action.Digit '0') = initialState := rfl
      rw [h0]
      have hdw : (('0' : Char) :: rest).dropWhile (fun c => c == '0') =
          rest.dropWhile (fun c => c == '0') := rfl
      rw [hdw]
      exact ih
    · rw [List.map_cons, applyAll, List.foldl_cons]
      have h1 : apply initialState (Action.Digit d) =
          (⟨String.mk [d], none, none, false, false⟩ : CalcState) := rfl
      rw [h1]
      have h2 := applyAll_digits_append rest d [] none none hd0
      rw [show (rest.map Action.Digit).foldl apply
          (⟨String.mk [d], none, none, false, false⟩ : CalcState) =
          applyAll (⟨String.mk [d], none, none, false, false⟩ : CalcState)
          (rest.map Action.Digit) from rfl, h2]
      have hbe : (d == '0') = false := by
        cases hx : d == '0' with
        | false => rfl
        | true => exact absurd (eq_of_beq hx) hd0
      have hdw : (d :: rest).dropWhile (fun c => c == '0') = d :: rest := by
        rw [List.dropWhile_cons, hbe]
        simp
      rw [hdw, if_neg (by simp)]
      rfl

/-- Claim C5: with no error, a pending operator, and awaitingOperand
still true, a second operator press only substitutes the pending
operator; display, accumulator and the flag are untouched, as in the
chain Digit 5, Operator +, Operator *. -/
theorem claim5_operator_substitution (s : CalcState) (p op : Op)
    (h1 : s.hasError = false) (h2 : s.pendingOperator = some p)
    (h3 : s.awaitingNextValue = true) :
    handleOperator s op = { s with pendingOperator := some op } ∧
    (handleOperator s op).displayValue = s.displayValue ∧
    (handleOperator s op).currentValue = s.currentValue ∧
    (handleOperator s op).awaitingNextValue = s.awaitingNextValue ∧
    (applyAll initialState [Action.Digit '5', Action.Operator Op.add,
      Action.Operator Op.mul]).pendingOperator = some Op.mul ∧
    (applyAll initialState [Action.Digit '5', Action.Operator Op.add,
      Action.Operator Op.mul]).currentValue =
      (applyAll initialState [Action.Digit '5', Action.Operator Op.add]).currentValue := by
  obtain ⟨dv, cv, po, aw, he⟩ := s
  have h1' : he = false := h1
  have h2' : po = some p := h2
  have h3' : aw = true := h3
  subst h1' h2' h3'
  exact ⟨rfl, rfl, rfl, rfl, by decide, by decide⟩

/-- Claim C5 witness: instantiated at the state reached after
Digit 5 then Operator +. -/
theorem claim5_witness :
    handleOperator (⟨"5", some 5, some Op.add, true, false⟩ : CalcState) Op.mul =
      (⟨"5", some 5, some Op.mul, true, false⟩ : CalcState) :=
  (claim5_operator_substitution (⟨"5", some 5, some Op.add, true, false⟩ : CalcState)
    Op.add Op.mul rfl rfl rfl).1

/-- Claim C6: with no error latched, Percent rescales the display to
format(parse(display) / 100); with no pending operator the accumulator
is also set to the new value, with a pending operator it is untouched;
Digit 5, Digit 0, Percent gives display 0.5 and accumulator 0.5. -/
theorem claim6_percent (s : CalcState) (h : s.hasError = false) :
    applyPercent s =
      (if s.pendingOperator = none then
        { s with displayValue := formatResult (parseFloat s.displayValue / 100),
                 currentValue := some (parseFloat s.displayValue / 100) }
      else
        { s with displayValue := formatResult (parseFloat s.displayValue / 100) }) ∧
    (applyAll initialState [Action.Digit '5', Action.Digit '0',
      Action.Percent]).displayValue = "0.5" ∧
    (applyAll initialState [Action.Digit '5', Action.Digit '0',
      Action.Percent]).currentValue = some (1 / 2 : ℚ) := by
  refine ⟨?_, by decide, by decide⟩
  obtain ⟨dv, cv, po, aw, he⟩ := s
  have h' : he = false := h
  subst h'
  cases po with
  | none => rfl
  | some pop => rfl

/-- Claim C6 witness: instantiated at the initial state, where no
operator is pending. -/
theorem claim6_witness :
    initialState.hasError = false ∧
    applyPercent initialState =
      { initialState with
          displayValue := formatResult (parseFloat initialState.displayValue / 100),
          currentValue := some (parseFloat initialState.displayValue / 100) } ∧
    (applyAll initialState [Action.Digit '5', Action.Digit '0',
      Action.Percent]).displayValue = "0.5" := by
  have h := claim6_percent initialState rfl
  exact ⟨rfl, h.1, h.2.1⟩

/-- Claim C7: every state reachable from the initial state by valid
actions shows at most one decimal point; Decimal is idempotent (a second
press with nothing in between is a no-op), and formatResult never emits
more than one point. -/
theorem claim7_single_decimal_point (acts : List Action)
    (hv : ∀ a ∈ acts, a.valid = true) (s : CalcState) (q : ℚ) :
    dotCount (applyAll initialState acts).displayValue ≤ 1 ∧
    inputDecimal (inputDecimal s) = inputDecimal s ∧
    dotCount (formatResult q) ≤ 1 :=
  ⟨dotCount_applyAll acts initialState hv (by decide),
   inputDecimal_idem s, dotCount_formatResult q⟩

/-- Claim C7 witness: a concrete run with repeated decimal presses keeps
a single point in the display. -/
theorem claim7_witness :
    (∀ a ∈ [Action.Digit '1', Action.Decimal, Action.Digit '2', Action.Decimal],
      a.valid = true) ∧
    dotCount (applyAll initialState [Action.Digit '1', Action.Decimal,
      Action.Digit '2', Action.Decimal]).displayValue ≤ 1 :=
  ⟨by decide, (claim7_single_decimal_point [Action.Digit '1', Action.Decimal,
    Action.Digit '2', Action.Decimal] (by decide) initialState 0).1⟩

/-- Claim C9: ToggleSign is a no-op exactly when the error is latched or
the display shows 0 (so from the initial state the display stays 0);
otherwise it reformats the negated parsed display, and in every case it
never touches accumulator, pending operator, the awaiting flag or the
error flag. -/
theorem claim9_toggleSign (s : CalcState) :
    toggleSign s = (if s.hasError || s.displayValue = DEFAULT_DISPLAY then s
      else { s with displayValue := formatResult (parseFloat s.displayValue * -1) }) ∧
    (toggleSign initialState).displayValue = DEFAULT_DISPLAY ∧
    (toggleSign s).currentValue = s.currentValue ∧
    (toggleSign s).pendingOperator = s.pendingOperator ∧
    (toggleSign s).awaitingNextValue = s.awaitingNextValue ∧
    (toggleSign s).hasError = s.hasError := by
  have h1 : toggleSign s = (if s.hasError || s.displayValue = DEFAULT_DISPLAY then s
      else { s with displayValue := formatResult (parseFloat s.displayValue * -1) }) := rfl
  refine ⟨h1, rfl, ?_, ?_, ?_, ?_⟩ <;> rw [h1] <;> split <;> rfl

/-- Claim C10: Percent never changes awaitingOperand or the pending
operator; right after an operator is accepted (awaitingOperand true,
no error) a Percent keeps the flag true, so a following Digit replaces
the display outright and the percent-scaled operand is discarded. -/
theorem claim10_percent_keeps_awaiting (s : CalcState) (d : Char)
    (h1 : s.hasError = false) (h2 : s.awaitingNextValue = true) :
    (applyPercent s).awaitingNextValue = true ∧
    (applyPercent s).pendingOperator = s.pendingOperator ∧
    (inputDigit (applyPercent s) d).displayValue = String.mk [d] ∧
    (inputDigit (applyPercent s) d).awaitingNextValue = false := by
  obtain ⟨dv, cv, po, aw, he⟩ := s
  have h1' : he = false := h1
  have h2' : aw = true := h2
  subst h1' h2'
  cases po with
  | none => exact ⟨rfl, rfl, rfl, rfl⟩
  | some pop => exact ⟨rfl, rfl, rfl, rfl⟩

/-- Claim C10 witness: instantiated right after Digit 5, Digit 0 and
Operator + (awaiting the second operand), then Percent and Digit 7. -/
theorem claim10_witness :
    (⟨"50", some 50, some Op.add, true, false⟩ : CalcState).hasError = false ∧
    (⟨"50", some 50, some Op.add, true, false⟩ : CalcState).awaitingNextValue = true ∧
    (applyPercent (⟨"50", some 50, some Op.add, true, false⟩ :
      CalcState)).awaitingNextValue = true ∧
    (inputDigit (applyPercent (⟨"50", some 50, some Op.add, true, false⟩ : CalcState))
      '7').displayValue = String.mk ['7'] := by
  have h := claim10_percent_keeps_awaiting
    (⟨"50", some 50, some Op.add, true, false⟩ : CalcState) '7' rfl rfl
  exact ⟨rfl, rfl, h.1, h.2.2.1⟩

end SimpleCalculator
